import Mathlib

set_option linter.unusedVariables false

/-!
Verification of the Game Boy Color CPU core (`src/cpu/cpu.py`).

The register file, the per-opcode operations, the dispatch table and the
fetch-execute loop of `GameBoyColorCPU` are embedded shallowly:

* a Python register pair `[high, low]` becomes a `Pair` of naturals;
* Python integers are unbounded, so registers are `Nat` (or `Int` where a
  subtraction may go negative); Python's `x & 0xFF` / `x & 0xFFFF` masks on
  a nonnegative value are written `% 0x100` / `% 0x10000`, and on a possibly
  negative value via `mask8` / `mask16` (Python's `&` on negative ints is
  two's-complement, which for a mask `2^k - 1` is the mathematical `% 2^k`);
* `game_data[i]` with `i` out of range raises `IndexError`; every operation
  that reads memory therefore returns `Option CPUState`, `none` being the
  error outcome;
* `tick(n)` only advances the cycle counter (its `time.sleep` pacing has no
  effect on the register state);
* the dict `__opcode_table` becomes `execOp`, and `main_loop` becomes a
  fuel-indexed recursion whose `RunResult` distinguishes a normal stop
  (opcode 0x10), a runtime error, and running out of fuel.
-/

namespace GBC

/-- A 16-bit register pair stored as two 8-bit halves, Python's `[high, low]`
two-element list (index `HIGH = 0`, `LOW = 1`). -/
structure Pair where
  hi : Nat
  lo : Nat
  deriving Repr, DecidableEq

/-- The register state of `GameBoyColorCPU`: the pairs `AF`, `BC`, `DE`,
`HL`, the scalars `SP` and `PC`, and the cycle counter `__ticks`. -/
structure CPUState where
  AF : Pair
  BC : Pair
  DE : Pair
  HL : Pair
  SP : Nat
  PC : Nat
  ticks : Nat
  deriving Repr, DecidableEq

/-- Python's `x & 0xFF` on a possibly negative int (two's complement):
the mathematical remainder mod 256. -/
def mask8 (x : Int) : Nat := (x % 0x100).toNat

/-- Python's `x & 0xFFFF` on a possibly negative int (two's complement):
the mathematical remainder mod 65536. -/
def mask16 (x : Int) : Nat := (x % 0x10000).toNat

/-- The comparison `self.__BC == 0` (and its `DE`/`HL` analogues) written in
the 8-bit inc/dec handlers compares the two-element Python *list* `[hi, lo]`
with the *integer* `0`; in Python a list is never equal to an int, so this
condition is `false` for every pair, whatever its value. -/
def pyPairEqIntZero (p : Pair) : Bool := false

/-- The timing accountant `tick(ticks=n)`: the `while ticks:` loop increments `__ticks` once per
remaining count (the real-time `time.sleep` pacing touches no register). -/
def tick : Nat → CPUState → CPUState
  | 0, s => s
  | n + 1, s => tick n { s with ticks := s.ticks + 1 }

/-- Indexing `game_data[i]` for the nonnegative index `i`: `some` byte when `i` is in
range, `none` for the `IndexError` raised past the end of the sequence. -/
def fetch (m : List Nat) (i : Nat) : Option Nat := m.get? i

/-- Opcode 0x00, `nop`. -/
def nop (m : List Nat) (s : CPUState) : Option CPUState :=
  some (tick 4 { s with PC := s.PC + 1 })

/-- Opcode 0x01, `ld_16bit_bc`: the two bytes after the opcode go to B then C. -/
def ld_16bit_bc (m : List Nat) (s : CPUState) : Option CPUState :=
  (fetch m (s.PC + 1)).bind fun d1 =>
    (fetch m (s.PC + 2)).bind fun d2 =>
      some (tick 12 { s with BC := { hi := d1, lo := d2 }, PC := s.PC + 3 })

/-- Opcode 0x02, `ld_8bit_bc_a`: computes the address from BC; the store is
deferred (commented `TODO` in the source), so only PC and ticks change. -/
def ld_8bit_bc_a (m : List Nat) (s : CPUState) : Option CPUState :=
  let memory_location := (s.BC.hi <<< 8) + s.BC.lo
  let _ := memory_location
  some (tick 8 { s with PC := s.PC + 1 })

/-- Opcode 0x03, `inc_16bit_bc`. -/
def inc_16bit_bc (m : List Nat) (s : CPUState) : Option CPUState :=
  let val := ((s.BC.hi <<< 8) + s.BC.lo + 1) % 0x10000
  some (tick 8 { s with BC := { hi := val >>> 8, lo := val % 0x100 }, PC := s.PC + 1 })

/-- Opcode 0x04, `inc_8bit_b`: mask B to 8 bits, then build F from scratch
(`flags = 0`, Z from the list-vs-int comparison, which never fires). -/
def inc_8bit_b (m : List Nat) (s : CPUState) : Option CPUState :=
  let bc := { s.BC with hi := (s.BC.hi + 1) % 0x100 }
  let flags := if pyPairEqIntZero bc then 0b00000000 ||| 0x80 else 0b00000000 &&& 0x7F
  some (tick 4 { s with BC := bc, PC := s.PC + 1, AF := { s.AF with lo := flags } })

/-- Opcode 0x05, `dec_8bit_b`: B may go to -1 before the 8-bit mask. -/
def dec_8bit_b (m : List Nat) (s : CPUState) : Option CPUState :=
  let bc := { s.BC with hi := mask8 ((s.BC.hi : Int) - 1) }
  let flags := if pyPairEqIntZero bc then 0b01000000 ||| 0x80 else 0b01000000 &&& 0x7F
  some (tick 4 { s with BC := bc, PC := s.PC + 1, AF := { s.AF with lo := flags } })

/-- Opcode 0x06, `ld_8bit_b_d8`. -/
def ld_8bit_b_d8 (m : List Nat) (s : CPUState) : Option CPUState :=
  (fetch m (s.PC + 1)).bind fun d =>
    some (tick 8 { s with BC := { s.BC with hi := d }, PC := s.PC + 2 })

/-- Opcode 0x07, `rlca`. -/
def rlca (m : List Nat) (s : CPUState) : Option CPUState :=
  let carry := (s.AF.hi &&& 0x80) >>> 7
  let flags := carry <<< 4
  some (tick 4 { s with
    AF := { hi := ((s.AF.hi <<< 1) % 0x100) ||| carry, lo := flags },
    PC := s.PC + 1 })

/-- Opcode 0x08, `ld_16bit_a16_sp`: reads the two address bytes (so it can
raise `IndexError`); the SP store itself is deferred (`TODO` in the source). -/
def ld_16bit_a16_sp (m : List Nat) (s : CPUState) : Option CPUState :=
  (fetch m (s.PC + 1)).bind fun d1 =>
    (fetch m (s.PC + 2)).bind fun d2 =>
      let memory_location := (d1 <<< 8) + d2
      let _ := memory_location
      some (tick 20 { s with PC := s.PC + 3 })

/-- Opcode 0x09, `add_16bit_hl_bc`. -/
def add_16bit_hl_bc (m : List Nat) (s : CPUState) : Option CPUState :=
  let val_hl := (s.HL.hi <<< 8) + s.HL.lo
  let val_bc := (s.BC.hi <<< 8) + s.BC.lo
  let bit_11_carry := ((val_hl % 0x1000) + (val_bc % 0x1000)) >>> 12
  let sum := val_hl + val_bc
  let bit_15_carry := sum >>> 16
  let masked := sum % 0x10000
  let flags := 0b00000000 ||| (bit_11_carry <<< 5) ||| (bit_15_carry <<< 4)
  some (tick 8 { s with
    HL := { hi := masked >>> 8, lo := masked % 0x100 },
    AF := { s.AF with lo := flags },
    PC := s.PC + 1 })

/-- Opcode 0x0A, `ld_8bit_a_bc`: address computed, transfer deferred. -/
def ld_8bit_a_bc (m : List Nat) (s : CPUState) : Option CPUState :=
  let memory_location := (s.BC.hi <<< 8) + s.BC.lo
  let _ := memory_location
  some (tick 8 { s with PC := s.PC + 1 })

/-- Opcode 0x0B, `dec_16bit_bc`. -/
def dec_16bit_bc (m : List Nat) (s : CPUState) : Option CPUState :=
  let val := mask16 (((s.BC.hi <<< 8) + s.BC.lo : Int) - 1)
  some (tick 8 { s with BC := { hi := val >>> 8, lo := val % 0x100 }, PC := s.PC + 1 })

/-- Opcode 0x0C, `inc_8bit_c`. -/
def inc_8bit_c (m : List Nat) (s : CPUState) : Option CPUState :=
  let bc := { s.BC with lo := (s.BC.lo + 1) % 0x100 }
  let flags := if pyPairEqIntZero bc then 0b00000000 ||| 0x80 else 0b00000000 &&& 0x7F
  some (tick 4 { s with BC := bc, PC := s.PC + 1, AF := { s.AF with lo := flags } })

/-- Opcode 0x0D, `dec_8bit_c`. -/
def dec_8bit_c (m : List Nat) (s : CPUState) : Option CPUState :=
  let bc := { s.BC with lo := mask8 ((s.BC.lo : Int) - 1) }
  let flags := if pyPairEqIntZero bc then 0b01000000 ||| 0x80 else 0b01000000 &&& 0x7F
  some (tick 4 { s with BC := bc, PC := s.PC + 1, AF := { s.AF with lo := flags } })

/-- Opcode 0x0E, `ld_8bit_c_d8`. -/
def ld_8bit_c_d8 (m : List Nat) (s : CPUState) : Option CPUState :=
  (fetch m (s.PC + 1)).bind fun d =>
    some (tick 8 { s with BC := { s.BC with lo := d }, PC := s.PC + 2 })

/-- Opcode 0x0F, `rrca`. -/
def rrca (m : List Nat) (s : CPUState) : Option CPUState :=
  let carry := s.AF.hi &&& 0x01
  let flags := carry <<< 4
  some (tick 4 { s with
    AF := { hi := (s.AF.hi >>> 1) ||| (carry <<< 7), lo := flags },
    PC := s.PC + 1 })

/-- Opcode 0x10, `stop` as stored in the dispatch table: a bare `pass`
(the run loop intercepts opcode 0x10 before ever dispatching here). -/
def stop (m : List Nat) (s : CPUState) : Option CPUState :=
  some s

/-- Opcode 0x11, `ld_16bit_de`. -/
def ld_16bit_de (m : List Nat) (s : CPUState) : Option CPUState :=
  (fetch m (s.PC + 1)).bind fun d1 =>
    (fetch m (s.PC + 2)).bind fun d2 =>
      some (tick 12 { s with DE := { hi := d1, lo := d2 }, PC := s.PC + 3 })

/-- Opcode 0x12, `ld_8bit_de_a`: address computed, transfer deferred. -/
def ld_8bit_de_a (m : List Nat) (s : CPUState) : Option CPUState :=
  let memory_location := (s.DE.hi <<< 8) + s.DE.lo
  let _ := memory_location
  some (tick 8 { s with PC := s.PC + 1 })

/-- Opcode 0x13, `inc_16bit_de`. -/
def inc_16bit_de (m : List Nat) (s : CPUState) : Option CPUState :=
  let val := ((s.DE.hi <<< 8) + s.DE.lo + 1) % 0x10000
  some (tick 8 { s with DE := { hi := val >>> 8, lo := val % 0x100 }, PC := s.PC + 1 })

/-- Opcode 0x14, `inc_8bit_d`. -/
def inc_8bit_d (m : List Nat) (s : CPUState) : Option CPUState :=
  let de := { s.DE with hi := (s.DE.hi + 1) % 0x100 }
  let flags := if pyPairEqIntZero de then 0b00000000 ||| 0x80 else 0b00000000 &&& 0x7F
  some (tick 4 { s with DE := de, PC := s.PC + 1, AF := { s.AF with lo := flags } })

/-- Opcode 0x15, `dec_8bit_d`. -/
def dec_8bit_d (m : List Nat) (s : CPUState) : Option CPUState :=
  let de := { s.DE with hi := mask8 ((s.DE.hi : Int) - 1) }
  let flags := if pyPairEqIntZero de then 0b01000000 ||| 0x80 else 0b01000000 &&& 0x7F
  some (tick 4 { s with DE := de, PC := s.PC + 1, AF := { s.AF with lo := flags } })

/-- Opcode 0x16, `ld_8bit_d_d8`. -/
def ld_8bit_d_d8 (m : List Nat) (s : CPUState) : Option CPUState :=
  (fetch m (s.PC + 1)).bind fun d =>
    some (tick 8 { s with DE := { s.DE with hi := d }, PC := s.PC + 2 })

/-- Opcode 0x17, `rla`: rotates the old C flag (bit 4 of F) into bit 0. -/
def rla (m : List Nat) (s : CPUState) : Option CPUState :=
  let carry := (s.AF.lo &&& 0x10) >>> 4
  let new_carry := (s.AF.hi &&& 0x80) >>> 7
  let flags := new_carry <<< 4
  some (tick 4 { s with
    AF := { hi := ((s.AF.hi <<< 1) % 0x100) ||| carry, lo := flags },
    PC := s.PC + 1 })

/-- Opcode 0x18, `jr_8bit_r8`: `PC += game_data[PC + 1]`, nothing else;
the displacement is read as an unsigned byte and no instruction-length
advance is applied on top of it. -/
def jr_8bit_r8 (m : List Nat) (s : CPUState) : Option CPUState :=
  (fetch m (s.PC + 1)).bind fun d =>
    some (tick 12 { s with PC := s.PC + d })

/-- Opcode 0x19, `add_16bit_hl_de`. -/
def add_16bit_hl_de (m : List Nat) (s : CPUState) : Option CPUState :=
  let val_hl := (s.HL.hi <<< 8) + s.HL.lo
  let val_de := (s.DE.hi <<< 8) + s.DE.lo
  let bit_11_carry := ((val_hl % 0x1000) + (val_de % 0x1000)) >>> 12
  let sum := val_hl + val_de
  let bit_15_carry := sum >>> 16
  let masked := sum % 0x10000
  let flags := 0b00000000 ||| (bit_11_carry <<< 5) ||| (bit_15_carry <<< 4)
  some (tick 8 { s with
    HL := { hi := masked >>> 8, lo := masked % 0x100 },
    AF := { s.AF with lo := flags },
    PC := s.PC + 1 })

/-- Opcode 0x1A, `ld_8bit_a_de`: address computed, transfer deferred. -/
def ld_8bit_a_de (m : List Nat) (s : CPUState) : Option CPUState :=
  let memory_location := (s.DE.hi <<< 8) + s.DE.lo
  let _ := memory_location
  some (tick 8 { s with PC := s.PC + 1 })

/-- Opcode 0x1B, `dec_16bit_de`. -/
def dec_16bit_de (m : List Nat) (s : CPUState) : Option CPUState :=
  let val := mask16 (((s.DE.hi <<< 8) + s.DE.lo : Int) - 1)
  some (tick 8 { s with DE := { hi := val >>> 8, lo := val % 0x100 }, PC := s.PC + 1 })

/-- Opcode 0x1C, `inc_8bit_e`. -/
def inc_8bit_e (m : List Nat) (s : CPUState) : Option CPUState :=
  let de := { s.DE with lo := (s.DE.lo + 1) % 0x100 }
  let flags := if pyPairEqIntZero de then 0b00000000 ||| 0x80 else 0b00000000 &&& 0x7F
  some (tick 4 { s with DE := de, PC := s.PC + 1, AF := { s.AF with lo := flags } })

/-- Opcode 0x1D, `dec_8bit_e`. -/
def dec_8bit_e (m : List Nat) (s : CPUState) : Option CPUState :=
  let de := { s.DE with lo := mask8 ((s.DE.lo : Int) - 1) }
  let flags := if pyPairEqIntZero de then 0b01000000 ||| 0x80 else 0b01000000 &&& 0x7F
  some (tick 4 { s with DE := de, PC := s.PC + 1, AF := { s.AF with lo := flags } })

/-- Opcode 0x1E, `ld_8bit_e_d8`. -/
def ld_8bit_e_d8 (m : List Nat) (s : CPUState) : Option CPUState :=
  (fetch m (s.PC + 1)).bind fun d =>
    some (tick 8 { s with DE := { s.DE with lo := d }, PC := s.PC + 2 })

/-- Opcode 0x1F, `rra`: rotates the old C flag into bit 7. -/
def rra (m : List Nat) (s : CPUState) : Option CPUState :=
  let carry := (s.AF.lo &&& 0x10) >>> 4
  let new_carry := s.AF.hi &&& 0x01
  let flags := new_carry <<< 4
  some (tick 4 { s with
    AF := { hi := (s.AF.hi >>> 1) ||| (carry <<< 7), lo := flags },
    PC := s.PC + 1 })

/-- Opcode 0x20, `jr_8bit_nz_r8`: when Z (bit 7 of F) is clear, behave like
`jr_8bit_r8` for 12 cycles; when Z is set, only 8 cycles are charged and PC
is left completely unchanged (no instruction-length advance either). -/
def jr_8bit_nz_r8 (m : List Nat) (s : CPUState) : Option CPUState :=
  if s.AF.lo &&& 0x80 = 0 then
    (fetch m (s.PC + 1)).bind fun d =>
      some (tick 12 { s with PC := s.PC + d })
  else
    some (tick 8 s)

/-- Opcode 0x21, `ld_16bit_hl`. -/
def ld_16bit_hl (m : List Nat) (s : CPUState) : Option CPUState :=
  (fetch m (s.PC + 1)).bind fun d1 =>
    (fetch m (s.PC + 2)).bind fun d2 =>
      some (tick 12 { s with HL := { hi := d1, lo := d2 }, PC := s.PC + 3 })

/-- Opcode 0x22, `ld_8bit_hli_a`: address computed and transfer deferred,
but HL is still incremented by 1 modulo 0x10000. -/
def ld_8bit_hli_a (m : List Nat) (s : CPUState) : Option CPUState :=
  let memory_location := (s.HL.hi <<< 8) + s.HL.lo
  let val := (memory_location + 1) % 0x10000
  some (tick 8 { s with HL := { hi := val >>> 8, lo := val % 0x100 }, PC := s.PC + 1 })

/-- Opcode 0x23, `inc_16bit_hl`. -/
def inc_16bit_hl (m : List Nat) (s : CPUState) : Option CPUState :=
  let val := ((s.HL.hi <<< 8) + s.HL.lo + 1) % 0x10000
  some (tick 8 { s with HL := { hi := val >>> 8, lo := val % 0x100 }, PC := s.PC + 1 })

/-- Opcode 0x24, `inc_8bit_h`. -/
def inc_8bit_h (m : List Nat) (s : CPUState) : Option CPUState :=
  let hl := { s.HL with hi := (s.HL.hi + 1) % 0x100 }
  let flags := if pyPairEqIntZero hl then 0b00000000 ||| 0x80 else 0b00000000 &&& 0x7F
  some (tick 4 { s with HL := hl, PC := s.PC + 1, AF := { s.AF with lo := flags } })

/-- Opcode 0x25, `dec_8bit_h`. -/
def dec_8bit_h (m : List Nat) (s : CPUState) : Option CPUState :=
  let hl := { s.HL with hi := mask8 ((s.HL.hi : Int) - 1) }
  let flags := if pyPairEqIntZero hl then 0b01000000 ||| 0x80 else 0b01000000 &&& 0x7F
  some (tick 4 { s with HL := hl, PC := s.PC + 1, AF := { s.AF with lo := flags } })

/-- Opcode 0x26, `ld_8bit_h_d8`. -/
def ld_8bit_h_d8 (m : List Nat) (s : CPUState) : Option CPUState :=
  (fetch m (s.PC + 1)).bind fun d =>
    some (tick 8 { s with HL := { s.HL with hi := d }, PC := s.PC + 2 })

/-- The dispatch table `__opcode_table`: the dict from opcode byte to handler; `none` for an
opcode with no entry (Python would raise `KeyError`). -/
def execOp (op : Nat) (m : List Nat) (s : CPUState) : Option CPUState :=
  if op = 0x00 then nop m s
  else if op = 0x01 then ld_16bit_bc m s
  else if op = 0x02 then ld_8bit_bc_a m s
  else if op = 0x03 then inc_16bit_bc m s
  else if op = 0x04 then inc_8bit_b m s
  else if op = 0x05 then dec_8bit_b m s
  else if op = 0x06 then ld_8bit_b_d8 m s
  else if op = 0x07 then rlca m s
  else if op = 0x08 then ld_16bit_a16_sp m s
  else if op = 0x09 then add_16bit_hl_bc m s
  else if op = 0x0A then ld_8bit_a_bc m s
  else if op = 0x0B then dec_16bit_bc m s
  else if op = 0x0C then inc_8bit_c m s
  else if op = 0x0D then dec_8bit_c m s
  else if op = 0x0E then ld_8bit_c_d8 m s
  else if op = 0x0F then rrca m s
  else if op = 0x10 then stop m s
  else if op = 0x11 then ld_16bit_de m s
  else if op = 0x12 then ld_8bit_de_a m s
  else if op = 0x13 then inc_16bit_de m s
  else if op = 0x14 then inc_8bit_d m s
  else if op = 0x15 then dec_8bit_d m s
  else if op = 0x16 then ld_8bit_d_d8 m s
  else if op = 0x17 then rla m s
  else if op = 0x18 then jr_8bit_r8 m s
  else if op = 0x19 then add_16bit_hl_de m s
  else if op = 0x1A then ld_8bit_a_de m s
  else if op = 0x1B then dec_16bit_de m s
  else if op = 0x1C then inc_8bit_e m s
  else if op = 0x1D then dec_8bit_e m s
  else if op = 0x1E then ld_8bit_e_d8 m s
  else if op = 0x1F then rra m s
  else if op = 0x20 then jr_8bit_nz_r8 m s
  else if op = 0x21 then ld_16bit_hl m s
  else if op = 0x22 then ld_8bit_hli_a m s
  else if op = 0x23 then inc_16bit_hl m s
  else if op = 0x24 then inc_8bit_h m s
  else if op = 0x25 then dec_8bit_h m s
  else if op = 0x26 then ld_8bit_h_d8 m s
  else none

/-- Outcome of running `main_loop` with a given amount of fuel. -/
inductive RunResult where
  | stopped (s : CPUState)
  | err
  | outOfFuel (s : CPUState)
  deriving Repr, DecidableEq

/-- The run loop `main_loop`: fetch the opcode at PC; on 0x10, advance PC by 2, charge 4
cycles and terminate; otherwise dispatch through the opcode table and
continue.  `err` models an uncaught `IndexError`/`KeyError`. -/
def main_loop (m : List Nat) : Nat → CPUState → RunResult
  | 0, s => .outOfFuel s
  | fuel + 1, s =>
    match fetch m s.PC with
    | none => .err
    | some op =>
      if op = 0x10 then
        .stopped (tick 4 { s with PC := s.PC + 2 })
      else
        match execOp op m s with
        | none => .err
        | some s1 => main_loop m fuel s1

/-- The combined 16-bit value `(high << 8) + low` of a register pair. -/
def val16 (p : Pair) : Nat := (p.hi <<< 8) + p.lo

/-- Both halves of a pair are bytes: the masking invariant of §3 of the spec. -/
def wfPair (p : Pair) : Prop := p.hi ≤ 0xFF ∧ p.lo ≤ 0xFF

/-- Register-file well-formedness: every half of every pair is a byte and the
stack pointer fits in 16 bits.  The program counter is deliberately absent:
the source never masks it (see the C6 counterexample below). -/
def wfRegs (s : CPUState) : Prop :=
  wfPair s.AF ∧ wfPair s.BC ∧ wfPair s.DE ∧ wfPair s.HL ∧ s.SP ≤ 0xFFFF

/-- Program memory is a byte sequence: every entry fits in 8 bits (the parser
hands the engine a slice of a Python `bytes` object). -/
def wfMem (m : List Nat) : Prop := ∀ b ∈ m, b ≤ 0xFF

instance (p : Pair) : Decidable (wfPair p) := by unfold wfPair; infer_instance

instance (s : CPUState) : Decidable (wfRegs s) := by unfold wfRegs; infer_instance

instance (m : List Nat) : Decidable (wfMem m) := by unfold wfMem; infer_instance

/-- n-fold repetition of one operation in the `Option` monad. -/
def iterN (f : CPUState → Option CPUState) : Nat → CPUState → Option CPUState
  | 0, s => some s
  | n + 1, s => (f s).bind (iterN f n)

/-- The all-zero register file the engine starts from. -/
def initState : CPUState := ⟨⟨0, 0⟩, ⟨0, 0⟩, ⟨0, 0⟩, ⟨0, 0⟩, 0, 0, 0⟩

/-- A state with B = 0xFF, C = 0: one increment of B makes the BC pair 0x0000. -/
def stateB255 : CPUState := ⟨⟨0, 0⟩, ⟨0xFF, 0⟩, ⟨0, 0⟩, ⟨0, 0⟩, 0, 0, 0⟩

/-- A state with F = 0x80: the Z flag set, all else zero. -/
def stateZset : CPUState := ⟨⟨0, 0x80⟩, ⟨0, 0⟩, ⟨0, 0⟩, ⟨0, 0⟩, 0, 0, 0⟩

/-- A state with F = 0x10: the C flag set, all else zero. -/
def stateCset : CPUState := ⟨⟨0, 0x10⟩, ⟨0, 0⟩, ⟨0, 0⟩, ⟨0, 0⟩, 0, 0, 0⟩

/-- A state whose PC sits at the very top of the 16-bit range. -/
def statePCMax : CPUState := ⟨⟨0, 0⟩, ⟨0, 0⟩, ⟨0, 0⟩, ⟨0, 0⟩, 0, 0xFFFF, 0⟩

/-- A state with HL = 0xFFFF and BC = DE = 0x0001, exercising both carries
of `add hl, rr`. -/
def stateAdd : CPUState := ⟨⟨0, 0⟩, ⟨0, 1⟩, ⟨0, 1⟩, ⟨0xFF, 0xFF⟩, 0, 0, 0⟩

theorem tick_eq (n : Nat) (s : CPUState) :
    tick n s = { s with ticks := s.ticks + n } := by
  induction n generalizing s with
  | zero => rfl
  | succ k ih =>
    rw [tick, ih]
    simp
    omega

theorem val16_split (v : Nat) (hv : v < 0x10000) : val16 ⟨v >>> 8, v % 0x100⟩ = v := by
  unfold val16
  dsimp only
  rw [Nat.shiftLeft_eq, Nat.shiftRight_eq_div_pow]
  have h8 : (2 : Nat) ^ 8 = 0x100 := by norm_num
  rw [h8]
  omega

theorem val16_le (p : Pair) (hp : wfPair p) : val16 p ≤ 0xFFFF := by
  obtain ⟨h1, h2⟩ := hp
  unfold val16
  rw [Nat.shiftLeft_eq]
  have h8 : (2 : Nat) ^ 8 = 0x100 := by norm_num
  rw [h8]
  omega

theorem val16_canon (p : Pair) (hp : wfPair p) :
    (⟨val16 p >>> 8, val16 p % 0x100⟩ : Pair) = p := by
  obtain ⟨h1, h2⟩ := hp
  unfold val16
  rw [Nat.shiftLeft_eq, Nat.shiftRight_eq_div_pow]
  have h8 : (2 : Nat) ^ 8 = 0x100 := by norm_num
  rw [h8]
  have e1 : (p.hi * 0x100 + p.lo) / 0x100 = p.hi := by omega
  have e2 : (p.hi * 0x100 + p.lo) % 0x100 = p.lo := by omega
  rw [e1, e2]

theorem wfMem_byte {m : List Nat} {i d : Nat} (hm : wfMem m)
    (h : fetch m i = some d) : d ≤ 0xFF :=
  hm d (List.get?_mem h)

theorem mask8_le (x : Int) : mask8 x ≤ 0xFF := by
  unfold mask8
  omega

theorem mask16_le (x : Int) : mask16 x ≤ 0xFFFF := by
  unfold mask16
  omega

theorem mask16_lt (x : Int) : mask16 x < 0x10000 := by
  unfold mask16
  omega

theorem split_hi_le {v : Nat} (hv : v < 0x10000) : v >>> 8 ≤ 0xFF := by
  rw [Nat.shiftRight_eq_div_pow]
  have h8 : (2 : Nat) ^ 8 = 0x100 := by norm_num
  rw [h8]
  omega

theorem or_byte {x y : Nat} (hx : x < 0x100) (hy : y < 0x100) : x ||| y ≤ 0xFF := by
  have h8 : (2 : Nat) ^ 8 = 0x100 := by norm_num
  have h := Nat.or_lt_two_pow (h8.symm ▸ hx) (h8.symm ▸ hy)
  rw [h8] at h
  omega

theorem bit7_le_one (A : Nat) : (A &&& 0x80) >>> 7 ≤ 1 := by
  have h : A &&& 0x80 ≤ 0x80 := Nat.and_le_right
  rw [Nat.shiftRight_eq_div_pow]
  have h7 : (2 : Nat) ^ 7 = 0x80 := by norm_num
  rw [h7]
  omega

theorem bit4_le_one (A : Nat) : (A &&& 0x10) >>> 4 ≤ 1 := by
  have h : A &&& 0x10 ≤ 0x10 := Nat.and_le_right
  rw [Nat.shiftRight_eq_div_pow]
  have h4 : (2 : Nat) ^ 4 = 0x10 := by norm_num
  rw [h4]
  omega

theorem addhl_flags (a b : Nat) (ha : a ≤ 0xFFFF) (hb : b ≤ 0xFFFF) :
    ((0b00000000 ||| ((((a % 0x1000) + (b % 0x1000)) >>> 12) <<< 5) |||
        (((a + b) >>> 16) <<< 4)) &&& 0x20 ≠ 0 ↔
      0x1000 ≤ a % 0x1000 + b % 0x1000) ∧
    ((0b00000000 ||| ((((a % 0x1000) + (b % 0x1000)) >>> 12) <<< 5) |||
        (((a + b) >>> 16) <<< 4)) &&& 0x10 ≠ 0 ↔ 0x10000 ≤ a + b) ∧
    (0b00000000 ||| ((((a % 0x1000) + (b % 0x1000)) >>> 12) <<< 5) |||
        (((a + b) >>> 16) <<< 4)) &&& 0x80 = 0 ∧
    (0b00000000 ||| ((((a % 0x1000) + (b % 0x1000)) >>> 12) <<< 5) |||
        (((a + b) >>> 16) <<< 4)) &&& 0x40 = 0 ∧
    (0b00000000 ||| ((((a % 0x1000) + (b % 0x1000)) >>> 12) <<< 5) |||
        (((a + b) >>> 16) <<< 4)) ≤ 0xFF := by
  have e11 : ((a % 0x1000) + (b % 0x1000)) >>> 12 =
      if 0x1000 ≤ a % 0x1000 + b % 0x1000 then 1 else 0 := by
    rw [Nat.shiftRight_eq_div_pow]
    have h12 : (2 : Nat) ^ 12 = 0x1000 := by norm_num
    rw [h12]
    split_ifs with h <;> omega
  have e15 : (a + b) >>> 16 = if 0x10000 ≤ a + b then 1 else 0 := by
    rw [Nat.shiftRight_eq_div_pow]
    have h16 : (2 : Nat) ^ 16 = 0x10000 := by norm_num
    rw [h16]
    split_ifs with h <;> omega
  rw [e11, e15]
  by_cases h1 : 0x1000 ≤ a % 0x1000 + b % 0x1000 <;>
    by_cases h2 : 0x10000 ≤ a + b <;>
      simp [h1, h2] <;> decide

/-- C4: `add hl, rr` for rr ∈ {BC, DE} stores the 16-bit-masked sum into HL,
sets H exactly on bit-11 overflow of the low 12 bits, sets C exactly on
bit-15 overflow of the full sum, clears Z and N, advances PC by 1 and
charges 8 cycles, leaving every other register untouched. -/
theorem add_hl_rr_spec (m : List Nat) (s : CPUState)
    (hHL : wfPair s.HL) (hBC : wfPair s.BC) (hDE : wfPair s.DE) :
    (∃ s1, add_16bit_hl_bc m s = some s1 ∧
      val16 s1.HL = (val16 s.HL + val16 s.BC) % 0x10000 ∧
      (s1.AF.lo &&& 0x20 ≠ 0 ↔ 0x1000 ≤ val16 s.HL % 0x1000 + val16 s.BC % 0x1000) ∧
      (s1.AF.lo &&& 0x10 ≠ 0 ↔ 0x10000 ≤ val16 s.HL + val16 s.BC) ∧
      s1.AF.lo &&& 0x80 = 0 ∧ s1.AF.lo &&& 0x40 = 0 ∧
      s1.AF.hi = s.AF.hi ∧ s1.BC = s.BC ∧ s1.DE = s.DE ∧ s1.SP = s.SP ∧
      s1.PC = s.PC + 1 ∧ s1.ticks = s.ticks + 8) ∧
    (∃ s1, add_16bit_hl_de m s = some s1 ∧
      val16 s1.HL = (val16 s.HL + val16 s.DE) % 0x10000 ∧
      (s1.AF.lo &&& 0x20 ≠ 0 ↔ 0x1000 ≤ val16 s.HL % 0x1000 + val16 s.DE % 0x1000) ∧
      (s1.AF.lo &&& 0x10 ≠ 0 ↔ 0x10000 ≤ val16 s.HL + val16 s.DE) ∧
      s1.AF.lo &&& 0x80 = 0 ∧ s1.AF.lo &&& 0x40 = 0 ∧
      s1.AF.hi = s.AF.hi ∧ s1.BC = s.BC ∧ s1.DE = s.DE ∧ s1.SP = s.SP ∧
      s1.PC = s.PC + 1 ∧ s1.ticks = s.ticks + 8) := by
  have hA := val16_le s.HL hHL
  have hB := val16_le s.BC hBC
  have hD := val16_le s.DE hDE
  have hFB := addhl_flags (val16 s.HL) (val16 s.BC) hA hB
  have hFD := addhl_flags (val16 s.HL) (val16 s.DE) hA hD
  constructor
  · refine ⟨{ s with
      HL := ⟨((val16 s.HL + val16 s.BC) % 0x10000) >>> 8,
        ((val16 s.HL + val16 s.BC) % 0x10000) % 0x100⟩,
      AF := { s.AF with lo := 0b00000000 |||
        ((((val16 s.HL % 0x1000) + (val16 s.BC % 0x1000)) >>> 12) <<< 5) |||
        (((val16 s.HL + val16 s.BC) >>> 16) <<< 4) },
      PC := s.PC + 1, ticks := s.ticks + 8 }, ?_, ?_, ?_, ?_, ?_, ?_, rfl, rfl, rfl, rfl, rfl, rfl⟩
    · rfl
    · exact val16_split _ (Nat.mod_lt _ (by norm_num))
    · exact hFB.1
    · exact hFB.2.1
    · exact hFB.2.2.1
    · exact hFB.2.2.2.1
  · refine ⟨{ s with
      HL := ⟨((val16 s.HL + val16 s.DE) % 0x10000) >>> 8,
        ((val16 s.HL + val16 s.DE) % 0x10000) % 0x100⟩,
      AF := { s.AF with lo := 0b00000000 |||
        ((((val16 s.HL % 0x1000) + (val16 s.DE % 0x1000)) >>> 12) <<< 5) |||
        (((val16 s.HL + val16 s.DE) >>> 16) <<< 4) },
      PC := s.PC + 1, ticks := s.ticks + 8 }, ?_, ?_, ?_, ?_, ?_, ?_, rfl, rfl, rfl, rfl, rfl, rfl⟩
    · rfl
    · exact val16_split _ (Nat.mod_lt _ (by norm_num))
    · exact hFD.1
    · exact hFD.2.1
    · exact hFD.2.2.1
    · exact hFD.2.2.2.1

/-- Witness for C4 on HL = 0xFFFF, rr = 0x0001: both carries fire and HL
wraps to 0x0000 (the BC half of the theorem, with every hypothesis checked). -/
theorem add_hl_rr_spec_witness :
    wfPair stateAdd.HL ∧ wfPair stateAdd.BC ∧ wfPair stateAdd.DE ∧
      (∃ s1, add_16bit_hl_bc [] stateAdd = some s1 ∧
        val16 s1.HL = (val16 stateAdd.HL + val16 stateAdd.BC) % 0x10000 ∧
        (s1.AF.lo &&& 0x20 ≠ 0 ↔
          0x1000 ≤ val16 stateAdd.HL % 0x1000 + val16 stateAdd.BC % 0x1000) ∧
        (s1.AF.lo &&& 0x10 ≠ 0 ↔ 0x10000 ≤ val16 stateAdd.HL + val16 stateAdd.BC) ∧
        s1.AF.lo &&& 0x80 = 0 ∧ s1.AF.lo &&& 0x40 = 0 ∧
        s1.AF.hi = stateAdd.AF.hi ∧ s1.BC = stateAdd.BC ∧ s1.DE = stateAdd.DE ∧
        s1.SP = stateAdd.SP ∧ s1.PC = stateAdd.PC + 1 ∧ s1.ticks = stateAdd.ticks + 8) :=
  ⟨by decide, by decide, by decide,
    (add_hl_rr_spec [] stateAdd (by decide) (by decide) (by decide)).1⟩

/-- C1: running the loop from a state whose current byte is the stop opcode
0x10 terminates at once, advancing PC by 2, charging 4 cycles, and mutating
no register other than PC and the cycle counter. -/
theorem stop_opcode_terminates (m : List Nat) (s : CPUState) (fuel : Nat)
    (h : fetch m s.PC = some 0x10) :
    main_loop m (fuel + 1) s =
      .stopped ⟨s.AF, s.BC, s.DE, s.HL, s.SP, s.PC + 2, s.ticks + 4⟩ := by
  rw [main_loop, h]
  simp [tick_eq]

/-- Witness for C1 at the one-byte program `[0x10]` and the initial state. -/
theorem stop_opcode_terminates_witness :
    fetch [0x10] initState.PC = some 0x10 ∧
      main_loop [0x10] 1 initState =
        .stopped ⟨initState.AF, initState.BC, initState.DE, initState.HL,
          initState.SP, initState.PC + 2, initState.ticks + 4⟩ :=
  ⟨by decide, stop_opcode_terminates [0x10] initState 0 (by decide)⟩

/-- C2 (code bug, evaluated): incrementing B on a state with B = 0xFF, C = 0
leaves the BC pair at 0x0000, yet the resulting flags byte is 0x00 — the Z
flag stays clear because `self.__BC == 0` compares a Python list with an int
and is always false.  The spec's claim that Z tracks `pair = 0` is the
evident intent (the `flags | 0x80` branch is otherwise dead code). -/
theorem inc_8bit_b_zero_pair_z_clear :
    (inc_8bit_b [] stateB255).map (fun t => (t.BC, t.AF.lo)) =
      some (⟨0, 0⟩, 0) := by decide

/-- C3 (counterexample): with Z set and displacement byte 0x05, `jr nz, r8`
does NOT apply the claimed instruction-length advance of 2: PC stays put. -/
theorem jr_nz_z_set_no_advance_cex :
    ¬ (jr_8bit_nz_r8 [0x20, 0x05] stateZset).map CPUState.PC =
        some (stateZset.PC + 2) := by decide

/-- C3 (amended): with the Z flag set, `jr nz, r8` leaves PC entirely
unchanged (it does not even apply an instruction-length advance) and charges
8 cycles; unconditional `jr r8` sets PC to PC plus the displacement byte at
PC + 1 and charges 12 cycles. -/
theorem jr_semantics (m : List Nat) (s : CPUState) :
    (s.AF.lo &&& 0x80 ≠ 0 →
      jr_8bit_nz_r8 m s = some { s with ticks := s.ticks + 8 }) ∧
    (∀ d, fetch m (s.PC + 1) = some d →
      jr_8bit_r8 m s = some { s with PC := s.PC + d, ticks := s.ticks + 12 }) := by
  constructor
  · intro hz
    unfold jr_8bit_nz_r8
    rw [if_neg hz]
    simp [tick_eq]
  · intro d hd
    simp [jr_8bit_r8, hd, tick_eq]

/-- Witness for C3: the Z-set branch at PC = 0 and the unconditional jump on
the program `[0x18, 0x05]`, which lands PC on 0x05. -/
theorem jr_semantics_witness :
    jr_8bit_nz_r8 [0x20, 0x05] stateZset =
        some { stateZset with ticks := stateZset.ticks + 8 } ∧
      jr_8bit_r8 [0x18, 0x05] initState =
        some { initState with PC := initState.PC + 5, ticks := initState.ticks + 12 } :=
  ⟨(jr_semantics [0x20, 0x05] stateZset).1 (by decide),
   (jr_semantics [0x18, 0x05] initState).2 5 (by decide)⟩

/-- C5: an opcode fetch at a PC past the end of program memory stops the run
loop with an error, and an immediate-operand fetch past the end makes the
operation fail — neither wraps around nor reads a default byte. -/
theorem oob_fetch_errors (m : List Nat) (s : CPUState) (fuel : Nat)
    (h1 : m.length ≤ s.PC) (s2 : CPUState) (h2 : m.length ≤ s2.PC + 1) :
    main_loop m (fuel + 1) s = .err ∧ ld_8bit_b_d8 m s2 = none := by
  constructor
  · rw [main_loop]
    rw [show fetch m s.PC = none from List.get?_eq_none.mpr h1]
  · unfold ld_8bit_b_d8
    rw [show fetch m (s2.PC + 1) = none from List.get?_eq_none.mpr h2]
    rfl

/-- Witness for C5 on the empty program at the initial state. -/
theorem oob_fetch_errors_witness :
    List.length ([] : List Nat) ≤ initState.PC ∧
      main_loop [] 1 initState = .err ∧ ld_8bit_b_d8 [] initState = none :=
  ⟨by decide, oob_fetch_errors [] initState 0 (by decide) initState (by decide)⟩

/-- C6 (counterexample): `nop` executed with PC = 0xFFFF pushes PC to
0x10000 — the program counter is never masked to 16 bits. -/
theorem pc_not_masked_cex :
    (nop [] statePCMax).map CPUState.PC = some 0x10000 ∧
      ¬ 0x10000 ≤ 0xFFFF := by decide

/-- C7 (counterexample): `inc b` on a state whose C flag is set does not
preserve it — the flags byte is rebuilt from scratch and C is wiped. -/
theorem inc_c_flag_not_preserved_cex :
    ¬ (inc_8bit_b [] stateCset).map (fun t => t.AF.lo &&& 0x10) =
        some (stateCset.AF.lo &&& 0x10) := by decide

/-- C7 (amended): every 8-bit register increment and decrement overwrites
the whole flags byte, so the C flag (bit 4 of F) is 0 after the operation
regardless of its prior value. -/
theorem inc_dec_clear_c (m : List Nat) (s : CPUState) :
    (inc_8bit_b m s).map (fun t => t.AF.lo &&& 0x10) = some 0 ∧
    (inc_8bit_c m s).map (fun t => t.AF.lo &&& 0x10) = some 0 ∧
    (inc_8bit_d m s).map (fun t => t.AF.lo &&& 0x10) = some 0 ∧
    (inc_8bit_e m s).map (fun t => t.AF.lo &&& 0x10) = some 0 ∧
    (inc_8bit_h m s).map (fun t => t.AF.lo &&& 0x10) = some 0 ∧
    (dec_8bit_b m s).map (fun t => t.AF.lo &&& 0x10) = some 0 ∧
    (dec_8bit_c m s).map (fun t => t.AF.lo &&& 0x10) = some 0 ∧
    (dec_8bit_d m s).map (fun t => t.AF.lo &&& 0x10) = some 0 ∧
    (dec_8bit_e m s).map (fun t => t.AF.lo &&& 0x10) = some 0 ∧
    (dec_8bit_h m s).map (fun t => t.AF.lo &&& 0x10) = some 0 := by
  refine ⟨?_, ?_, ?_, ?_, ?_, ?_, ?_, ?_, ?_, ?_⟩ <;>
    simp [inc_8bit_b, inc_8bit_c, inc_8bit_d, inc_8bit_e, inc_8bit_h,
      dec_8bit_b, dec_8bit_c, dec_8bit_d, dec_8bit_e, dec_8bit_h,
      pyPairEqIntZero, tick_eq] <;> decide

/-- C8: every 16-bit immediate load copies the byte at PC + 1 into the
pair's high half and the byte at PC + 2 into its low half, advances PC by 3
and charges 12 cycles, changing nothing else. -/
theorem ld_16bit_spec (m : List Nat) (s : CPUState) (d1 d2 : Nat)
    (h1 : fetch m (s.PC + 1) = some d1) (h2 : fetch m (s.PC + 2) = some d2) :
    ld_16bit_bc m s =
        some { s with BC := ⟨d1, d2⟩, PC := s.PC + 3, ticks := s.ticks + 12 } ∧
      ld_16bit_de m s =
        some { s with DE := ⟨d1, d2⟩, PC := s.PC + 3, ticks := s.ticks + 12 } ∧
      ld_16bit_hl m s =
        some { s with HL := ⟨d1, d2⟩, PC := s.PC + 3, ticks := s.ticks + 12 } := by
  refine ⟨?_, ?_, ?_⟩ <;>
    simp [ld_16bit_bc, ld_16bit_de, ld_16bit_hl, h1, h2, tick_eq]

/-- Witness for C8: `ld bc, d16` on `[0x01, 0x12, 0x34]` yields B = 0x12,
C = 0x34, PC + 3, 12 cycles. -/
theorem ld_16bit_spec_witness :
    ld_16bit_bc [0x01, 0x12, 0x34] initState =
        some { initState with BC := ⟨0x12, 0x34⟩, PC := initState.PC + 3, ticks := initState.ticks + 12 } ∧
      ld_16bit_de [0x01, 0x12, 0x34] initState =
        some { initState with DE := ⟨0x12, 0x34⟩, PC := initState.PC + 3, ticks := initState.ticks + 12 } ∧
      ld_16bit_hl [0x01, 0x12, 0x34] initState =
        some { initState with HL := ⟨0x12, 0x34⟩, PC := initState.PC + 3, ticks := initState.ticks + 12 } :=
  ld_16bit_spec [0x01, 0x12, 0x34] initState 0x12 0x34 (by decide) (by decide)

/-- C10: each indirect load through a pair address only advances PC by 1 and
charges 8 cycles — the accumulator and the flags are untouched — except that
the `hl+` variant additionally increments HL by 1 modulo 0x10000. -/
theorem indirect_ld_frame (m : List Nat) (s : CPUState) :
    ld_8bit_a_bc m s = some { s with PC := s.PC + 1, ticks := s.ticks + 8 } ∧
    ld_8bit_a_de m s = some { s with PC := s.PC + 1, ticks := s.ticks + 8 } ∧
    ld_8bit_bc_a m s = some { s with PC := s.PC + 1, ticks := s.ticks + 8 } ∧
    ld_8bit_de_a m s = some { s with PC := s.PC + 1, ticks := s.ticks + 8 } ∧
    ∃ hl1, ld_8bit_hli_a m s =
        some { s with HL := hl1, PC := s.PC + 1, ticks := s.ticks + 8 } ∧
      val16 hl1 = (val16 s.HL + 1) % 0x10000 := by
  refine ⟨?_, ?_, ?_, ?_,
    ⟨⟨((val16 s.HL + 1) % 0x10000) >>> 8, ((val16 s.HL + 1) % 0x10000) % 0x100⟩,
      ?_, ?_⟩⟩
  · simp [ld_8bit_a_bc, tick_eq]
  · simp [ld_8bit_a_de, tick_eq]
  · simp [ld_8bit_bc_a, tick_eq]
  · simp [ld_8bit_de_a, tick_eq]
  · simp [ld_8bit_hli_a, tick_eq, val16]
  · exact val16_split ((val16 s.HL + 1) % 0x10000) (Nat.mod_lt _ (by norm_num))

set_option maxHeartbeats 1000000 in
/-- C6 (amended): after every operation in the dispatch table, every half of
every register pair is still a byte and SP is still a 16-bit value (given
byte-valued program memory); the program counter, by contrast, is never
masked and can leave the 16-bit range (see the counterexample). -/
theorem execOp_preserves_wfRegs (op : Nat) (m : List Nat) (s s1 : CPUState)
    (hs : wfRegs s) (hm : wfMem m) (h : execOp op m s = some s1) : wfRegs s1 := by
  unfold execOp at h
  by_cases e00 : op = 0x00
  · rw [if_pos e00] at h
    simp only [nop, tick_eq, Option.some.injEq] at h
    subst h
    exact hs
  rw [if_neg e00] at h
  by_cases e01 : op = 0x01
  · rw [if_pos e01] at h
    simp only [ld_16bit_bc, Option.bind_eq_some, Option.some.injEq, tick_eq] at h
    obtain ⟨d1, hd1, d2, hd2, h⟩ := h
    subst h
    dsimp only [wfRegs, wfPair]
    exact ⟨hs.1, ⟨wfMem_byte hm hd1, wfMem_byte hm hd2⟩, hs.2.2.1, hs.2.2.2.1, hs.2.2.2.2⟩
  rw [if_neg e01] at h
  by_cases e02 : op = 0x02
  · rw [if_pos e02] at h
    simp only [ld_8bit_bc_a, tick_eq, Option.some.injEq] at h
    subst h
    exact hs
  rw [if_neg e02] at h
  by_cases e03 : op = 0x03
  · rw [if_pos e03] at h
    simp only [inc_16bit_bc, Option.some.injEq, tick_eq] at h
    subst h
    dsimp only [wfRegs, wfPair]
    exact ⟨hs.1, ⟨split_hi_le (Nat.mod_lt _ (by norm_num)), by omega⟩, hs.2.2.1, hs.2.2.2.1, hs.2.2.2.2⟩
  rw [if_neg e03] at h
  by_cases e04 : op = 0x04
  · rw [if_pos e04] at h
    simp [inc_8bit_b, pyPairEqIntZero, tick_eq] at h
    subst h
    dsimp only [wfRegs, wfPair]
    exact ⟨⟨hs.1.1, by decide⟩, ⟨by omega, hs.2.1.2⟩, hs.2.2.1, hs.2.2.2.1, hs.2.2.2.2⟩
  rw [if_neg e04] at h
  by_cases e05 : op = 0x05
  · rw [if_pos e05] at h
    simp [dec_8bit_b, pyPairEqIntZero, tick_eq] at h
    subst h
    dsimp only [wfRegs, wfPair]
    exact ⟨⟨hs.1.1, by decide⟩, ⟨mask8_le _, hs.2.1.2⟩, hs.2.2.1, hs.2.2.2.1, hs.2.2.2.2⟩
  rw [if_neg e05] at h
  by_cases e06 : op = 0x06
  · rw [if_pos e06] at h
    simp only [ld_8bit_b_d8, Option.bind_eq_some, Option.some.injEq, tick_eq] at h
    obtain ⟨d, hd, h⟩ := h
    subst h
    dsimp only [wfRegs, wfPair]
    exact ⟨hs.1, ⟨wfMem_byte hm hd, hs.2.1.2⟩, hs.2.2.1, hs.2.2.2.1, hs.2.2.2.2⟩
  rw [if_neg e06] at h
  by_cases e07 : op = 0x07
  · rw [if_pos e07] at h
    simp only [rlca, Option.some.injEq, tick_eq] at h
    subst h
    dsimp only [wfRegs, wfPair]
    refine ⟨⟨?_, ?_⟩, hs.2.1, hs.2.2.1, hs.2.2.2.1, hs.2.2.2.2⟩
    · exact or_byte (Nat.mod_lt _ (by norm_num)) (by have := bit7_le_one s.AF.hi; omega)
    · have := bit7_le_one s.AF.hi
      rw [Nat.shiftLeft_eq]
      have h4 : (2 : Nat) ^ 4 = 0x10 := by norm_num
      rw [h4]
      omega
  rw [if_neg e07] at h
  by_cases e08 : op = 0x08
  · rw [if_pos e08] at h
    simp only [ld_16bit_a16_sp, Option.bind_eq_some, Option.some.injEq, tick_eq] at h
    obtain ⟨d1, hd1, d2, hd2, h⟩ := h
    subst h
    exact hs
  rw [if_neg e08] at h
  by_cases e09 : op = 0x09
  · rw [if_pos e09] at h
    simp only [add_16bit_hl_bc, Option.some.injEq, tick_eq] at h
    subst h
    dsimp only [wfRegs, wfPair]
    refine ⟨⟨hs.1.1, ?_⟩, hs.2.1, hs.2.2.1, ⟨split_hi_le (Nat.mod_lt _ (by norm_num)), by omega⟩, hs.2.2.2.2⟩
    exact (addhl_flags _ _ (val16_le s.HL hs.2.2.2.1) (val16_le s.BC hs.2.1)).2.2.2.2
  rw [if_neg e09] at h
  by_cases e0A : op = 0x0A
  · rw [if_pos e0A] at h
    simp only [ld_8bit_a_bc, tick_eq, Option.some.injEq] at h
    subst h
    exact hs
  rw [if_neg e0A] at h
  by_cases e0B : op = 0x0B
  · rw [if_pos e0B] at h
    simp only [dec_16bit_bc, Option.some.injEq, tick_eq] at h
    subst h
    dsimp only [wfRegs, wfPair]
    exact ⟨hs.1, ⟨split_hi_le (mask16_lt _), by omega⟩, hs.2.2.1, hs.2.2.2.1, hs.2.2.2.2⟩
  rw [if_neg e0B] at h
  by_cases e0C : op = 0x0C
  · rw [if_pos e0C] at h
    simp [inc_8bit_c, pyPairEqIntZero, tick_eq] at h
    subst h
    dsimp only [wfRegs, wfPair]
    exact ⟨⟨hs.1.1, by decide⟩, ⟨hs.2.1.1, by omega⟩, hs.2.2.1, hs.2.2.2.1, hs.2.2.2.2⟩
  rw [if_neg e0C] at h
  by_cases e0D : op = 0x0D
  · rw [if_pos e0D] at h
    simp [dec_8bit_c, pyPairEqIntZero, tick_eq] at h
    subst h
    dsimp only [wfRegs, wfPair]
    exact ⟨⟨hs.1.1, by decide⟩, ⟨hs.2.1.1, mask8_le _⟩, hs.2.2.1, hs.2.2.2.1, hs.2.2.2.2⟩
  rw [if_neg e0D] at h
  by_cases e0E : op = 0x0E
  · rw [if_pos e0E] at h
    simp only [ld_8bit_c_d8, Option.bind_eq_some, Option.some.injEq, tick_eq] at h
    obtain ⟨d, hd, h⟩ := h
    subst h
    dsimp only [wfRegs, wfPair]
    exact ⟨hs.1, ⟨hs.2.1.1, wfMem_byte hm hd⟩, hs.2.2.1, hs.2.2.2.1, hs.2.2.2.2⟩
  rw [if_neg e0E] at h
  by_cases e0F : op = 0x0F
  · rw [if_pos e0F] at h
    simp only [rrca, Option.some.injEq, tick_eq] at h
    subst h
    dsimp only [wfRegs, wfPair]
    refine ⟨⟨?_, ?_⟩, hs.2.1, hs.2.2.1, hs.2.2.2.1, hs.2.2.2.2⟩
    · refine or_byte ?_ ?_
      · rw [Nat.shiftRight_eq_div_pow]
        have h1 : (2 : Nat) ^ 1 = 2 := by norm_num
        rw [h1]
        have := hs.1.1
        omega
      · have hc : s.AF.hi &&& 0x01 ≤ 1 := Nat.and_le_right
        rw [Nat.shiftLeft_eq]
        have h7 : (2 : Nat) ^ 7 = 0x80 := by norm_num
        rw [h7]
        omega
    · have hc : s.AF.hi &&& 0x01 ≤ 1 := Nat.and_le_right
      rw [Nat.shiftLeft_eq]
      have h4 : (2 : Nat) ^ 4 = 0x10 := by norm_num
      rw [h4]
      omega
  rw [if_neg e0F] at h
  by_cases e10 : op = 0x10
  · rw [if_pos e10] at h
    simp only [stop, Option.some.injEq] at h
    subst h
    exact hs
  rw [if_neg e10] at h
  by_cases e11 : op = 0x11
  · rw [if_pos e11] at h
    simp only [ld_16bit_de, Option.bind_eq_some, Option.some.injEq, tick_eq] at h
    obtain ⟨d1, hd1, d2, hd2, h⟩ := h
    subst h
    dsimp only [wfRegs, wfPair]
    exact ⟨hs.1, hs.2.1, ⟨wfMem_byte hm hd1, wfMem_byte hm hd2⟩, hs.2.2.2.1, hs.2.2.2.2⟩
  rw [if_neg e11] at h
  by_cases e12 : op = 0x12
  · rw [if_pos e12] at h
    simp only [ld_8bit_de_a, tick_eq, Option.some.injEq] at h
    subst h
    exact hs
  rw [if_neg e12] at h
  by_cases e13 : op = 0x13
  · rw [if_pos e13] at h
    simp only [inc_16bit_de, Option.some.injEq, tick_eq] at h
    subst h
    dsimp only [wfRegs, wfPair]
    exact ⟨hs.1, hs.2.1, ⟨split_hi_le (Nat.mod_lt _ (by norm_num)), by omega⟩, hs.2.2.2.1, hs.2.2.2.2⟩
  rw [if_neg e13] at h
  by_cases e14 : op = 0x14
  · rw [if_pos e14] at h
    simp [inc_8bit_d, pyPairEqIntZero, tick_eq] at h
    subst h
    dsimp only [wfRegs, wfPair]
    exact ⟨⟨hs.1.1, by decide⟩, hs.2.1, ⟨by omega, hs.2.2.1.2⟩, hs.2.2.2.1, hs.2.2.2.2⟩
  rw [if_neg e14] at h
  by_cases e15 : op = 0x15
  · rw [if_pos e15] at h
    simp [dec_8bit_d, pyPairEqIntZero, tick_eq] at h
    subst h
    dsimp only [wfRegs, wfPair]
    exact ⟨⟨hs.1.1, by decide⟩, hs.2.1, ⟨mask8_le _, hs.2.2.1.2⟩, hs.2.2.2.1, hs.2.2.2.2⟩
  rw [if_neg e15] at h
  by_cases e16 : op = 0x16
  · rw [if_pos e16] at h
    simp only [ld_8bit_d_d8, Option.bind_eq_some, Option.some.injEq, tick_eq] at h
    obtain ⟨d, hd, h⟩ := h
    subst h
    dsimp only [wfRegs, wfPair]
    exact ⟨hs.1, hs.2.1, ⟨wfMem_byte hm hd, hs.2.2.1.2⟩, hs.2.2.2.1, hs.2.2.2.2⟩
  rw [if_neg e16] at h
  by_cases e17 : op = 0x17
  · rw [if_pos e17] at h
    simp only [rla, Option.some.injEq, tick_eq] at h
    subst h
    dsimp only [wfRegs, wfPair]
    refine ⟨⟨?_, ?_⟩, hs.2.1, hs.2.2.1, hs.2.2.2.1, hs.2.2.2.2⟩
    · exact or_byte (Nat.mod_lt _ (by norm_num)) (by have := bit4_le_one s.AF.lo; omega)
    · have := bit7_le_one s.AF.hi
      rw [Nat.shiftLeft_eq]
      have h4 : (2 : Nat) ^ 4 = 0x10 := by norm_num
      rw [h4]
      omega
  rw [if_neg e17] at h
  by_cases e18 : op = 0x18
  · rw [if_pos e18] at h
    simp only [jr_8bit_r8, Option.bind_eq_some, Option.some.injEq, tick_eq] at h
    obtain ⟨d, hd, h⟩ := h
    subst h
    exact hs
  rw [if_neg e18] at h
  by_cases e19 : op = 0x19
  · rw [if_pos e19] at h
    simp only [add_16bit_hl_de, Option.some.injEq, tick_eq] at h
    subst h
    dsimp only [wfRegs, wfPair]
    refine ⟨⟨hs.1.1, ?_⟩, hs.2.1, hs.2.2.1, ⟨split_hi_le (Nat.mod_lt _ (by norm_num)), by omega⟩, hs.2.2.2.2⟩
    exact (addhl_flags _ _ (val16_le s.HL hs.2.2.2.1) (val16_le s.DE hs.2.2.1)).2.2.2.2
  rw [if_neg e19] at h
  by_cases e1A : op = 0x1A
  · rw [if_pos e1A] at h
    simp only [ld_8bit_a_de, tick_eq, Option.some.injEq] at h
    subst h
    exact hs
  rw [if_neg e1A] at h
  by_cases e1B : op = 0x1B
  · rw [if_pos e1B] at h
    simp only [dec_16bit_de, Option.some.injEq, tick_eq] at h
    subst h
    dsimp only [wfRegs, wfPair]
    exact ⟨hs.1, hs.2.1, ⟨split_hi_le (mask16_lt _), by omega⟩, hs.2.2.2.1, hs.2.2.2.2⟩
  rw [if_neg e1B] at h
  by_cases e1C : op = 0x1C
  · rw [if_pos e1C] at h
    simp [inc_8bit_e, pyPairEqIntZero, tick_eq] at h
    subst h
    dsimp only [wfRegs, wfPair]
    exact ⟨⟨hs.1.1, by decide⟩, hs.2.1, ⟨hs.2.2.1.1, by omega⟩, hs.2.2.2.1, hs.2.2.2.2⟩
  rw [if_neg e1C] at h
  by_cases e1D : op = 0x1D
  · rw [if_pos e1D] at h
    simp [dec_8bit_e, pyPairEqIntZero, tick_eq] at h
    subst h
    dsimp only [wfRegs, wfPair]
    exact ⟨⟨hs.1.1, by decide⟩, hs.2.1, ⟨hs.2.2.1.1, mask8_le _⟩, hs.2.2.2.1, hs.2.2.2.2⟩
  rw [if_neg e1D] at h
  by_cases e1E : op = 0x1E
  · rw [if_pos e1E] at h
    simp only [ld_8bit_e_d8, Option.bind_eq_some, Option.some.injEq, tick_eq] at h
    obtain ⟨d, hd, h⟩ := h
    subst h
    dsimp only [wfRegs, wfPair]
    exact ⟨hs.1, hs.2.1, ⟨hs.2.2.1.1, wfMem_byte hm hd⟩, hs.2.2.2.1, hs.2.2.2.2⟩
  rw [if_neg e1E] at h
  by_cases e1F : op = 0x1F
  · rw [if_pos e1F] at h
    simp only [rra, Option.some.injEq, tick_eq] at h
    subst h
    dsimp only [wfRegs, wfPair]
    refine ⟨⟨?_, ?_⟩, hs.2.1, hs.2.2.1, hs.2.2.2.1, hs.2.2.2.2⟩
    · refine or_byte ?_ ?_
      · rw [Nat.shiftRight_eq_div_pow]
        have h1 : (2 : Nat) ^ 1 = 2 := by norm_num
        rw [h1]
        have := hs.1.1
        omega
      · have := bit4_le_one s.AF.lo
        rw [Nat.shiftLeft_eq]
        have h7 : (2 : Nat) ^ 7 = 0x80 := by norm_num
        rw [h7]
        omega
    · have hc : s.AF.hi &&& 0x01 ≤ 1 := Nat.and_le_right
      rw [Nat.shiftLeft_eq]
      have h4 : (2 : Nat) ^ 4 = 0x10 := by norm_num
      rw [h4]
      omega
  rw [if_neg e1F] at h
  by_cases e20 : op = 0x20
  · rw [if_pos e20] at h
    unfold jr_8bit_nz_r8 at h
    split at h
    · simp only [Option.bind_eq_some, Option.some.injEq, tick_eq] at h
      obtain ⟨d, hd, h⟩ := h
      subst h
      exact hs
    · simp only [Option.some.injEq, tick_eq] at h
      subst h
      exact hs
  rw [if_neg e20] at h
  by_cases e21 : op = 0x21
  · rw [if_pos e21] at h
    simp only [ld_16bit_hl, Option.bind_eq_some, Option.some.injEq, tick_eq] at h
    obtain ⟨d1, hd1, d2, hd2, h⟩ := h
    subst h
    dsimp only [wfRegs, wfPair]
    exact ⟨hs.1, hs.2.1, hs.2.2.1, ⟨wfMem_byte hm hd1, wfMem_byte hm hd2⟩, hs.2.2.2.2⟩
  rw [if_neg e21] at h
  by_cases e22 : op = 0x22
  · rw [if_pos e22] at h
    simp only [ld_8bit_hli_a, Option.some.injEq, tick_eq] at h
    subst h
    dsimp only [wfRegs, wfPair]
    exact ⟨hs.1, hs.2.1, hs.2.2.1, ⟨split_hi_le (Nat.mod_lt _ (by norm_num)), by omega⟩, hs.2.2.2.2⟩
  rw [if_neg e22] at h
  by_cases e23 : op = 0x23
  · rw [if_pos e23] at h
    simp only [inc_16bit_hl, Option.some.injEq, tick_eq] at h
    subst h
    dsimp only [wfRegs, wfPair]
    exact ⟨hs.1, hs.2.1, hs.2.2.1, ⟨split_hi_le (Nat.mod_lt _ (by norm_num)), by omega⟩, hs.2.2.2.2⟩
  rw [if_neg e23] at h
  by_cases e24 : op = 0x24
  · rw [if_pos e24] at h
    simp [inc_8bit_h, pyPairEqIntZero, tick_eq] at h
    subst h
    dsimp only [wfRegs, wfPair]
    exact ⟨⟨hs.1.1, by decide⟩, hs.2.1, hs.2.2.1, ⟨by omega, hs.2.2.2.1.2⟩, hs.2.2.2.2⟩
  rw [if_neg e24] at h
  by_cases e25 : op = 0x25
  · rw [if_pos e25] at h
    simp [dec_8bit_h, pyPairEqIntZero, tick_eq] at h
    subst h
    dsimp only [wfRegs, wfPair]
    exact ⟨⟨hs.1.1, by decide⟩, hs.2.1, hs.2.2.1, ⟨mask8_le _, hs.2.2.2.1.2⟩, hs.2.2.2.2⟩
  rw [if_neg e25] at h
  by_cases e26 : op = 0x26
  · rw [if_pos e26] at h
    simp only [ld_8bit_h_d8, Option.bind_eq_some, Option.some.injEq, tick_eq] at h
    obtain ⟨d, hd, h⟩ := h
    subst h
    dsimp only [wfRegs, wfPair]
    exact ⟨hs.1, hs.2.1, hs.2.2.1, ⟨wfMem_byte hm hd, hs.2.2.2.1.2⟩, hs.2.2.2.2⟩
  rw [if_neg e26] at h
  exact Option.noConfusion h

theorem iterN_mod (M : Nat) (f : CPUState → Option CPUState) (proj : CPUState → Nat)
    (hf : ∀ s, ∃ s1, f s = some s1 ∧ proj s1 = (proj s + 1) % M) :
    ∀ n s, (iterN f (n + 1) s).map proj = some ((proj s + (n + 1)) % M) := by
  intro n
  induction n with
  | zero =>
    intro s
    obtain ⟨s1, hf1, hp⟩ := hf s
    simp [iterN, hf1, hp]
  | succ k ih =>
    intro s
    obtain ⟨s1, hf1, hp⟩ := hf s
    rw [iterN, hf1]
    have hb : (some s1).bind (iterN f (k + 1)) = iterN f (k + 1) s1 := rfl
    rw [hb, ih s1, hp]
    simp only [Option.some.injEq]
    rw [Nat.mod_add_mod]
    congr 1
    omega

theorem iterN_dec8 (f : CPUState → Option CPUState) (proj : CPUState → Nat)
    (hf : ∀ s, ∃ s1, f s = some s1 ∧ proj s1 = mask8 ((proj s : Int) - 1)) :
    ∀ n s, (iterN f (n + 1) s).map proj = some (mask8 ((proj s : Int) - (n + 1))) := by
  intro n
  induction n with
  | zero =>
    intro s
    obtain ⟨s1, hf1, hp⟩ := hf s
    simp [iterN, hf1, hp]
  | succ k ih =>
    intro s
    obtain ⟨s1, hf1, hp⟩ := hf s
    rw [iterN, hf1]
    have hb : (some s1).bind (iterN f (k + 1)) = iterN f (k + 1) s1 := rfl
    rw [hb, ih s1, hp]
    simp only [Option.some.injEq]
    unfold mask8
    omega

theorem iterN_dec16 (f : CPUState → Option CPUState) (proj : CPUState → Nat)
    (hf : ∀ s, ∃ s1, f s = some s1 ∧ proj s1 = mask16 ((proj s : Int) - 1)) :
    ∀ n s, (iterN f (n + 1) s).map proj = some (mask16 ((proj s : Int) - (n + 1))) := by
  intro n
  induction n with
  | zero =>
    intro s
    obtain ⟨s1, hf1, hp⟩ := hf s
    simp [iterN, hf1, hp]
  | succ k ih =>
    intro s
    obtain ⟨s1, hf1, hp⟩ := hf s
    rw [iterN, hf1]
    have hb : (some s1).bind (iterN f (k + 1)) = iterN f (k + 1) s1 := rfl
    rw [hb, ih s1, hp]
    simp only [Option.some.injEq]
    unfold mask16
    omega

/-- C9: repeating any 8-bit register increment or decrement 256 times, or
any 16-bit pair increment or decrement 65536 times, returns the affected
register (respectively the pair's combined 16-bit value) to its original
value, for every starting state whose registers are in range. -/
theorem wraparound_law (m : List Nat) (s : CPUState) (hs : wfRegs s) :
    (iterN (inc_8bit_b m) 0x100 s).map (fun t => t.BC.hi) = some s.BC.hi ∧
    (iterN (inc_8bit_c m) 0x100 s).map (fun t => t.BC.lo) = some s.BC.lo ∧
    (iterN (inc_8bit_d m) 0x100 s).map (fun t => t.DE.hi) = some s.DE.hi ∧
    (iterN (inc_8bit_e m) 0x100 s).map (fun t => t.DE.lo) = some s.DE.lo ∧
    (iterN (inc_8bit_h m) 0x100 s).map (fun t => t.HL.hi) = some s.HL.hi ∧
    (iterN (dec_8bit_b m) 0x100 s).map (fun t => t.BC.hi) = some s.BC.hi ∧
    (iterN (dec_8bit_c m) 0x100 s).map (fun t => t.BC.lo) = some s.BC.lo ∧
    (iterN (dec_8bit_d m) 0x100 s).map (fun t => t.DE.hi) = some s.DE.hi ∧
    (iterN (dec_8bit_e m) 0x100 s).map (fun t => t.DE.lo) = some s.DE.lo ∧
    (iterN (dec_8bit_h m) 0x100 s).map (fun t => t.HL.hi) = some s.HL.hi ∧
    (iterN (inc_16bit_bc m) 0x10000 s).map (fun t => val16 t.BC) = some (val16 s.BC) ∧
    (iterN (inc_16bit_de m) 0x10000 s).map (fun t => val16 t.DE) = some (val16 s.DE) ∧
    (iterN (inc_16bit_hl m) 0x10000 s).map (fun t => val16 t.HL) = some (val16 s.HL) ∧
    (iterN (dec_16bit_bc m) 0x10000 s).map (fun t => val16 t.BC) = some (val16 s.BC) ∧
    (iterN (dec_16bit_de m) 0x10000 s).map (fun t => val16 t.DE) = some (val16 s.DE) := by
  refine ⟨?_, ?_, ?_, ?_, ?_, ?_, ?_, ?_, ?_, ?_, ?_, ?_, ?_, ?_, ?_⟩
  · rw [show (0x100 : Nat) = 0xFF + 1 from rfl]
    rw [iterN_mod 0x100 (inc_8bit_b m) (fun t => t.BC.hi) (fun t => ⟨_, rfl, rfl⟩) 0xFF s]
    simp only [Option.some.injEq]
    have hb := hs.2.1.1
    omega
  · rw [show (0x100 : Nat) = 0xFF + 1 from rfl]
    rw [iterN_mod 0x100 (inc_8bit_c m) (fun t => t.BC.lo) (fun t => ⟨_, rfl, rfl⟩) 0xFF s]
    simp only [Option.some.injEq]
    have hb := hs.2.1.2
    omega
  · rw [show (0x100 : Nat) = 0xFF + 1 from rfl]
    rw [iterN_mod 0x100 (inc_8bit_d m) (fun t => t.DE.hi) (fun t => ⟨_, rfl, rfl⟩) 0xFF s]
    simp only [Option.some.injEq]
    have hb := hs.2.2.1.1
    omega
  · rw [show (0x100 : Nat) = 0xFF + 1 from rfl]
    rw [iterN_mod 0x100 (inc_8bit_e m) (fun t => t.DE.lo) (fun t => ⟨_, rfl, rfl⟩) 0xFF s]
    simp only [Option.some.injEq]
    have hb := hs.2.2.1.2
    omega
  · rw [show (0x100 : Nat) = 0xFF + 1 from rfl]
    rw [iterN_mod 0x100 (inc_8bit_h m) (fun t => t.HL.hi) (fun t => ⟨_, rfl, rfl⟩) 0xFF s]
    simp only [Option.some.injEq]
    have hb := hs.2.2.2.1.1
    omega
  · rw [show (0x100 : Nat) = 0xFF + 1 from rfl]
    rw [iterN_dec8 (dec_8bit_b m) (fun t => t.BC.hi) (fun t => ⟨_, rfl, rfl⟩) 0xFF s]
    simp only [Option.some.injEq]
    have hb := hs.2.1.1
    unfold mask8
    omega
  · rw [show (0x100 : Nat) = 0xFF + 1 from rfl]
    rw [iterN_dec8 (dec_8bit_c m) (fun t => t.BC.lo) (fun t => ⟨_, rfl, rfl⟩) 0xFF s]
    simp only [Option.some.injEq]
    have hb := hs.2.1.2
    unfold mask8
    omega
  · rw [show (0x100 : Nat) = 0xFF + 1 from rfl]
    rw [iterN_dec8 (dec_8bit_d m) (fun t => t.DE.hi) (fun t => ⟨_, rfl, rfl⟩) 0xFF s]
    simp only [Option.some.injEq]
    have hb := hs.2.2.1.1
    unfold mask8
    omega
  · rw [show (0x100 : Nat) = 0xFF + 1 from rfl]
    rw [iterN_dec8 (dec_8bit_e m) (fun t => t.DE.lo) (fun t => ⟨_, rfl, rfl⟩) 0xFF s]
    simp only [Option.some.injEq]
    have hb := hs.2.2.1.2
    unfold mask8
    omega
  · rw [show (0x100 : Nat) = 0xFF + 1 from rfl]
    rw [iterN_dec8 (dec_8bit_h m) (fun t => t.HL.hi) (fun t => ⟨_, rfl, rfl⟩) 0xFF s]
    simp only [Option.some.injEq]
    have hb := hs.2.2.2.1.1
    unfold mask8
    omega
  · rw [show (0x10000 : Nat) = 0xFFFF + 1 from rfl]
    rw [iterN_mod 0x10000 (inc_16bit_bc m) (fun t => val16 t.BC)
      (fun t => ⟨_, rfl, val16_split _ (Nat.mod_lt _ (by norm_num))⟩) 0xFFFF s]
    simp only [Option.some.injEq]
    have hb := val16_le s.BC hs.2.1
    omega
  · rw [show (0x10000 : Nat) = 0xFFFF + 1 from rfl]
    rw [iterN_mod 0x10000 (inc_16bit_de m) (fun t => val16 t.DE)
      (fun t => ⟨_, rfl, val16_split _ (Nat.mod_lt _ (by norm_num))⟩) 0xFFFF s]
    simp only [Option.some.injEq]
    have hb := val16_le s.DE hs.2.2.1
    omega
  · rw [show (0x10000 : Nat) = 0xFFFF + 1 from rfl]
    rw [iterN_mod 0x10000 (inc_16bit_hl m) (fun t => val16 t.HL)
      (fun t => ⟨_, rfl, val16_split _ (Nat.mod_lt _ (by norm_num))⟩) 0xFFFF s]
    simp only [Option.some.injEq]
    have hb := val16_le s.HL hs.2.2.2.1
    omega
  · rw [show (0x10000 : Nat) = 0xFFFF + 1 from rfl]
    rw [iterN_dec16 (dec_16bit_bc m) (fun t => val16 t.BC)
      (fun t => ⟨_, rfl, val16_split _ (mask16_lt _)⟩) 0xFFFF s]
    simp only [Option.some.injEq]
    have hb := val16_le s.BC hs.2.1
    unfold mask16
    omega
  · rw [show (0x10000 : Nat) = 0xFFFF + 1 from rfl]
    rw [iterN_dec16 (dec_16bit_de m) (fun t => val16 t.DE)
      (fun t => ⟨_, rfl, val16_split _ (mask16_lt _)⟩) 0xFFFF s]
    simp only [Option.some.injEq]
    have hb := val16_le s.DE hs.2.2.1
    unfold mask16
    omega

/-- Witness for C9 at the zeroed register file. -/
theorem wraparound_law_witness :
    (iterN (inc_8bit_b []) 0x100 initState).map (fun t => t.BC.hi) = some initState.BC.hi ∧
    (iterN (inc_8bit_c []) 0x100 initState).map (fun t => t.BC.lo) = some initState.BC.lo ∧
    (iterN (inc_8bit_d []) 0x100 initState).map (fun t => t.DE.hi) = some initState.DE.hi ∧
    (iterN (inc_8bit_e []) 0x100 initState).map (fun t => t.DE.lo) = some initState.DE.lo ∧
    (iterN (inc_8bit_h []) 0x100 initState).map (fun t => t.HL.hi) = some initState.HL.hi ∧
    (iterN (dec_8bit_b []) 0x100 initState).map (fun t => t.BC.hi) = some initState.BC.hi ∧
    (iterN (dec_8bit_c []) 0x100 initState).map (fun t => t.BC.lo) = some initState.BC.lo ∧
    (iterN (dec_8bit_d []) 0x100 initState).map (fun t => t.DE.hi) = some initState.DE.hi ∧
    (iterN (dec_8bit_e []) 0x100 initState).map (fun t => t.DE.lo) = some initState.DE.lo ∧
    (iterN (dec_8bit_h []) 0x100 initState).map (fun t => t.HL.hi) = some initState.HL.hi ∧
    (iterN (inc_16bit_bc []) 0x10000 initState).map (fun t => val16 t.BC) = some (val16 initState.BC) ∧
    (iterN (inc_16bit_de []) 0x10000 initState).map (fun t => val16 t.DE) = some (val16 initState.DE) ∧
    (iterN (inc_16bit_hl []) 0x10000 initState).map (fun t => val16 t.HL) = some (val16 initState.HL) ∧
    (iterN (dec_16bit_bc []) 0x10000 initState).map (fun t => val16 t.BC) = some (val16 initState.BC) ∧
    (iterN (dec_16bit_de []) 0x10000 initState).map (fun t => val16 t.DE) = some (val16 initState.DE) :=
  wraparound_law [] initState (by decide)

/-- Witness for C6 at `nop` on the empty memory and the zeroed state. -/
theorem execOp_preserves_wfRegs_witness :
    wfRegs initState ∧ wfMem [] ∧
      wfRegs (tick 4 { initState with PC := initState.PC + 1 }) :=
  ⟨by decide, by decide,
    execOp_preserves_wfRegs 0 [] initState
      (tick 4 { initState with PC := initState.PC + 1 })
      (by decide) (by decide) rfl⟩

end GBC
